import Mathlib

/-!
Verification of the lighthouse state-advance timer
(`beacon_node/beacon_chain/src/state_advance_timer.rs`) and of the
database manager's `prune_states` command
(`database_manager/src/lib.rs`), via a shallow embedding.

External collaborators (slot clock, fork choice, store, caches, the
one-slot transition) are modelled as an environment of oracle results;
the procedure itself is translated from the source and threads an
explicit trace of the side effects it performs (fork-choice runs, state
fetches, transitions, cache inserts, persistence calls).
-/

namespace StateAdvance

abbrev Slot := Nat
abbrev Epoch := Nat
abbrev Hash := Nat
abbrev Summary := Nat

/-- `MAX_ADVANCE_DISTANCE` from `state_advance_timer.rs`. -/
def MAX_ADVANCE_DISTANCE : Nat := 4

/-- Modelled from the spec: `Slot::epoch(slots_per_epoch)` lives in the
`types` crate, which is not under `src/`; per the glossary an epoch is a
fixed-size consecutive run of slots, so the epoch of a slot is the slot
divided (flooring) by `slots_per_epoch`. -/
def slotEpoch (spe : Nat) (s : Slot) : Epoch := s / spe

/-- A beacon state, reduced to the fields the advance-head procedure
inspects: its slot, plus an abstract payload standing for all other
data. -/
structure BState where
  slot : Slot
  payload : Nat
deriving Repr, DecidableEq

/-- `state.current_epoch()`: the epoch of the state's slot. -/
def BState.current_epoch (spe : Nat) (s : BState) : Epoch := slotEpoch spe s.slot

/-- Modelled from the spec: `per_slot_processing` lives in the
`state_processing` crate, which is not under `src/`. Per the spec it is
"the deterministic function advancing chain state by exactly one slot,
optionally crossing an epoch boundary and producing a summary", and it
may fail. Its interface is `(state, prior_root, spec) ->
Result<Option<EpochSummary>, Error>`; the prior state root only feeds
the internal root computation, so it is ignored here. `outcome` is the
environment's choice of result: `none` is a failure, `some osum` is
success with optional epoch summary `osum`. -/
def per_slot_processing (state : BState) (_prior_root : Option Hash)
    (outcome : Option (Option Summary)) : Option (Option Summary × BState) :=
  outcome.map fun osum => (osum, { state with slot := state.slot + 1 })

/-- The head info view: `head_info()` yields block root, slot and state
root. -/
structure HeadInfo where
  block_root : Hash
  slot : Slot
  state_root : Hash
deriving Repr, DecidableEq

/-- Modelled from the spec: `AttestationShufflingId` lives in the
`types` crate, which is not under `src/`. Per the spec it is "a derived
key identifying a specific epoch's validator shuffling", derived from
the decision block and an epoch-relative position. -/
structure AttestationShufflingId where
  shuffling_epoch : Epoch
  shuffling_decision_block : Hash
deriving Repr, DecidableEq

/-- Modelled from the spec:
`AttestationShufflingId::new(block_root, state, RelativeEpoch::Next)`
(types crate, not under `src/`) keys the shuffling of the epoch after
the state's current epoch, relative to the supplied decision block. -/
def AttestationShufflingId.next (spe : Nat) (block_root : Hash) (state : BState) :
    AttestationShufflingId :=
  ⟨state.current_epoch spe + 1, block_root⟩

/-- The inner `BeaconChainError` values the timer can surface; only
`AttestationCacheLockTimeout` is constructed by name in this file, all
other collaborator failures are abstract codes. -/
inductive BCErr where
  | attestationCacheLockTimeout
  | other (code : Nat)
deriving Repr, DecidableEq

/-- The `Error` enum of `state_advance_timer.rs`. -/
inductive Error where
  | beaconChain (e : BCErr)
  | beaconState (code : Nat)
  | store (code : Nat)
  | headMissingFromSnapshotCache (root : Hash)
  | maxDistanceExceeded (current_slot head_slot : Slot)
  | stateAlreadyAdvanced (block_root : Hash)
  | badStateSlot (state_slot current_slot : Slot)
deriving Repr, DecidableEq

/-- Trace of the observable side effects of one `advance_head`
invocation: each collaborator call the procedure makes is appended
here, whether or not the call itself succeeds. -/
structure Effects where
  fork_choice_runs : Nat
  state_fetches : List (Hash × Slot × Hash)
  transitions : Nat
  metrics_observes : Nat
  monitor_calls : List (Epoch × Summary)
  proposer_inserts : List (Epoch × Hash)
  shuffling_lock_tries : Nat
  shuffling_inserts : List AttestationShufflingId
  attester_offers : List Hash
  put_states : List (Hash × BState)
deriving Repr, DecidableEq

def Effects.empty : Effects := ⟨0, [], 0, 0, [], [], 0, [], [], []⟩

/-- The environment of one `advance_head` invocation: the results each
external collaborator would return if called. `Option`-valued fields
model fallible calls (`none` = the call fails); `Bool` fields model
calls whose only interesting outcome is success/failure. -/
structure Env where
  /-- `T::EthSpec::slots_per_epoch()`. -/
  slots_per_epoch : Nat
  /-- Modelled from the spec: `VALIDATOR_MONITOR_HISTORIC_EPOCHS` is the
  validator monitor's historic-epoch window, a constant defined in
  `validator_monitor.rs` which is not under `src/`; kept abstract. -/
  historic_epochs : Nat
  /-- `beacon_chain.slot()`. -/
  slot_result : Option Slot
  /-- `beacon_chain.head_info()` before fork choice. -/
  head_info_pre : Option HeadInfo
  /-- `beacon_chain.fork_choice()`. -/
  fork_choice_ok : Bool
  /-- `beacon_chain.head_info()` after fork choice. -/
  head_info_post : Option HeadInfo
  /-- `store.get_advanced_state(...)`: `none` = store error, `some none`
  = absent, `some (some (root, state))` = found. -/
  advanced_state : Option (Option (Hash × BState))
  /-- Result of `per_slot_processing` (see `per_slot_processing`). -/
  per_slot_outcome : Option (Option Summary)
  /-- `state.build_committee_cache(RelativeEpoch::Current, ..)`. -/
  build_current_ok : Bool
  /-- `state.build_committee_cache(RelativeEpoch::Next, ..)`. -/
  build_next_ok : Bool
  /-- `state.get_beacon_proposer_indices(..)`. -/
  proposer_indices : Option (List Nat)
  /-- `beacon_proposer_cache.lock().insert(..)`. -/
  proposer_insert_ok : Bool
  /-- `AttestationShufflingId::new(..)`. -/
  shuffling_id_ok : Bool
  /-- `state.committee_cache(RelativeEpoch::Next)`. -/
  committee_cache_ok : Bool
  /-- `shuffling_cache.try_write_for(ATTESTATION_CACHE_LOCK_TIMEOUT)`:
  `false` = the bounded wait timed out. -/
  shuffling_lock_ok : Bool
  /-- `attester_cache.maybe_cache_state(..)`. -/
  attester_ok : Bool
  /-- `state.update_tree_hash_cache()`: the tree-hash root of a state,
  or `none` on failure. -/
  tree_hash : BState → Option Hash
  /-- `store.put_state(..)`. -/
  put_state_ok : Bool

/-- Lines 287-328 of `state_advance_timer.rs`: the epoch-boundary cache
priming. Inserts the proposer shuffling for the state's current epoch
keyed by `head_block_root`, then the committee cache for the state's
next epoch keyed by its shuffling id. -/
def prime_caches (e : Env) (head_block_root : Hash) (state : BState) (eff : Effects) :
    Except Error Unit × Effects :=
  match e.proposer_indices with
  | none => (.error (.beaconChain (.other 7)), eff)
  | some _indices =>
    let eff := { eff with proposer_inserts :=
        eff.proposer_inserts ++ [(state.current_epoch e.slots_per_epoch, head_block_root)] }
    if e.proposer_insert_ok = false then (.error (.beaconChain (.other 8)), eff)
    else if e.shuffling_id_ok = false then (.error (.beaconChain (.other 9)), eff)
    else
      let shuffling_id := AttestationShufflingId.next e.slots_per_epoch head_block_root state
      if e.committee_cache_ok = false then (.error (.beaconChain (.other 10)), eff)
      else
        let eff := { eff with shuffling_lock_tries := eff.shuffling_lock_tries + 1 }
        if e.shuffling_lock_ok = false then
          (.error (.beaconChain .attestationCacheLockTimeout), eff)
        else
          (.ok (), { eff with shuffling_inserts := eff.shuffling_inserts ++ [shuffling_id] })

/-- Lines 278-350 of `state_advance_timer.rs`: the part of
`advance_head` after the one-slot transition — committee-cache builds,
the epoch-boundary cache priming gate, the attester-cache offer, and
persistence of the advanced state keyed by its tree-hash root. -/
def advance_rest (e : Env) (head_block_root : Hash) (initial_epoch : Epoch)
    (state : BState) (eff : Effects) : Except Error Unit × Effects :=
  if e.build_current_ok = false then (.error (.beaconChain (.other 5)), eff)
  else if e.build_next_ok = false then (.error (.beaconChain (.other 6)), eff)
  else
  match (if initial_epoch < state.current_epoch e.slots_per_epoch then
           prime_caches e head_block_root state eff
         else (.ok (), eff)) with
  | (.error err, eff) => (.error err, eff)
  | (.ok _, eff) =>
  let eff := { eff with attester_offers := eff.attester_offers ++ [head_block_root] }
  if e.attester_ok = false then (.error (.beaconChain (.other 11)), eff)
  else
  match e.tree_hash state with
  | none => (.error (.beaconState 0), eff)
  | some advanced_state_root =>
  let eff := { eff with put_states := eff.put_states ++ [(advanced_state_root, state)] }
  if e.put_state_ok = false then (.error (.store 1), eff)
  else (.ok (), eff)

/-- Lines 237-268 of `state_advance_timer.rs`: the epoch-summary
handling after the one-slot transition. When a summary was produced,
its Prometheus metrics are observed unconditionally (a failure is only
logged), and the validator monitor is notified only for recent states;
a `process_validator_statuses` failure is also only logged. -/
def observe_summary (e : Env) (current_slot : Slot) (state : BState)
    (osum : Option Summary) (eff : Effects) : Effects :=
  match osum with
  | none => eff
  | some summary =>
    let eff := { eff with metrics_observes := eff.metrics_observes + 1 }
    if state.current_epoch e.slots_per_epoch + e.historic_epochs
        ≥ slotEpoch e.slots_per_epoch current_slot then
      { eff with monitor_calls :=
          eff.monitor_calls ++ [(state.current_epoch e.slots_per_epoch, summary)] }
    else eff

/-- Lines 218-276 of `state_advance_timer.rs`: pre-state slot
validation, the one-slot transition, and the epoch-summary handling
(`observe_summary`). -/
def advance_tail (e : Env) (current_slot : Slot) (head_block_root head_state_root : Hash)
    (state₀ : BState) (eff : Effects) : Except Error Unit × Effects :=
  if state₀.slot = current_slot + 1 then
    (.error (.stateAlreadyAdvanced head_block_root), eff)
  else if state₀.slot ≠ current_slot then
    (.error (.badStateSlot state₀.slot current_slot), eff)
  else
  let initial_epoch := state₀.current_epoch e.slots_per_epoch
  let eff := { eff with transitions := 1 }
  match per_slot_processing state₀ (some head_state_root) e.per_slot_outcome with
  | none => (.error (.beaconChain (.other 4)), eff)
  | some (osum, state) =>
  advance_rest e head_block_root initial_epoch state
    (observe_summary e current_slot state osum eff)

/-- Lines 203-350 of `state_advance_timer.rs`: the part of
`advance_head` after the early slot-clock and max-distance gates — fork
choice, head refresh, pre-state fetch, then `advance_tail`. -/
def advance_head_post (e : Env) (current_slot : Slot) : Except Error Unit × Effects :=
  let eff := { Effects.empty with fork_choice_runs := 1 }
  if e.fork_choice_ok = false then (.error (.beaconChain (.other 2)), eff)
  else
  match e.head_info_post with
  | none => (.error (.beaconChain (.other 3)), eff)
  | some head_info =>
  let head_block_root := head_info.block_root
  let eff := { eff with state_fetches :=
      [(head_block_root, current_slot, head_info.state_root)] }
  match e.advanced_state with
  | none => (.error (.store 0), eff)
  | some none => (.error (.headMissingFromSnapshotCache head_block_root), eff)
  | some (some (head_state_root, state₀)) =>
  advance_tail e current_slot head_block_root head_state_root state₀ eff

/-- `advance_head` from `state_advance_timer.rs`, translated clause by
clause; returns the procedure's result together with the trace of the
collaborator calls it performed. Lines 185-201 (the slot read, the
borrowed head-slot read, and the max-distance gate) are here, the rest
is `advance_head_post`. -/
def advance_head (e : Env) : Except Error Unit × Effects :=
  match e.slot_result with
  | none => (.error (.beaconChain (.other 0)), Effects.empty)
  | some current_slot =>
  match e.head_info_pre with
  | none => (.error (.beaconChain (.other 1)), Effects.empty)
  | some pre_head =>
  if pre_head.slot + MAX_ADVANCE_DISTANCE < current_slot then
    (.error (.maxDistanceExceeded current_slot pre_head.slot), Effects.empty)
  else advance_head_post e current_slot

/-- The single-flight `Lock` of `state_advance_timer.rs`: an atomic
boolean flag. -/
structure Lock where
  flag : Bool
deriving Repr, DecidableEq

/-- `Lock::new()`: instantiate an unlocked self. -/
def Lock.new : Lock := ⟨false⟩

/-- `Lock::lock()`: `fetch_or(true)` — set the flag, returning `true`
if the lock was already set, together with the new lock state. -/
def Lock.lock (l : Lock) : Bool × Lock := (l.flag, ⟨true⟩)

/-- `Lock::unlock()`: `store(false)` — clear the flag. -/
def Lock.unlock (_l : Lock) : Lock := ⟨false⟩

/-- The sleep step at the top of each `state_advance_timer` loop
iteration (durations in nanoseconds): with a readable clock the loop
sleeps then attempts a dispatch; on a clock error it logs, sleeps a
full slot and `continue`s to the next iteration. -/
inductive TimerSleep where
  | toDispatch (ns : Nat)
  | retryAfter (ns : Nat)
deriving Repr, DecidableEq

/-- Lines 119-128 of `state_advance_timer.rs`: the
`duration_to_next_slot` match. `sleep(duration + (slot_duration / 4) * 3)`
on success; on `None`, log an error, `sleep(slot_duration)` and
continue. Rust `Duration` division truncates, as `Nat` division does on
nanosecond counts. -/
def timer_sleep (slot_duration : Nat) (duration_to_next_slot : Option Nat) : TimerSleep :=
  match duration_to_next_slot with
  | some duration => .toDispatch (duration + slot_duration / 4 * 3)
  | none => .retryAfter slot_duration

/-- The observable outcome of the dispatch attempt in one loop
iteration: whether a worker was spawned, whether the overload warning
was logged, the worker's full run (result and effect trace) if any, and
the lock state after the iteration's worker (if any) has completed. -/
structure DispatchResult where
  dispatched : Bool
  overload_warning : Bool
  worker_run : Option (Except Error Unit × Effects)
  lock_after : Lock

/-- Lines 130-178 of `state_advance_timer.rs`: `if !is_running.lock()`
spawn a blocking worker that runs `advance_head`, logs every possible
result, and unlocks unconditionally afterwards; otherwise log the
overload warning and spawn nothing. -/
def dispatch_step (is_running : Lock) (e : Env) : DispatchResult :=
  let locked := is_running.lock
  if locked.1 = false then
    let run := advance_head e
    -- The worker matches on every result variant (each is only logged)
    -- and then unlocks, so the lock is released whatever `run` is.
    { dispatched := true, overload_warning := false,
      worker_run := some run, lock_after := locked.2.unlock }
  else
    { dispatched := false, overload_warning := true,
      worker_run := none, lock_after := locked.2 }

end StateAdvance

namespace DatabaseManager

open StateAdvance (Hash Slot)

/-- Modelled from the spec: `STATE_UPPER_LIMIT_NO_RETAIN` is a sentinel
constant of the `store` crate, which is not under `src/`; only equality
against it matters here, so it is an arbitrary distinguished value. -/
def STATE_UPPER_LIMIT_NO_RETAIN : Nat := 0

/-- The slice of a beacon state that `prune_states` inspects: its
genesis validators root (plus an abstract payload). -/
structure GState where
  genesis_validators_root : Hash
  payload : Nat
deriving Repr, DecidableEq

/-- The slice of `AnchorInfo` that `prune_states` inspects. -/
structure AnchorInfo where
  state_upper_limit : Nat
deriving Repr, DecidableEq

/-- The distinct outcomes of `prune_states` (its `Result<(), String>`,
with the error strings told apart). -/
inductive PruneOutcome where
  | okAlreadyPruned
  | okPruned
  | errOpen
  | errGenesisRead
  | errGenesisMissing
  | errWrongNetwork
  | errConfirmationRequired
  | errGenesisRoot
  | errPrune
deriving Repr, DecidableEq

/-- The environment of one `prune_states` invocation: the `--confirm`
flag, the supplied genesis state, and the results the database would
return if called. -/
structure PruneEnv where
  /-- `prune_config.confirm` (`--confirm` present). -/
  confirm : Bool
  /-- The `genesis_state` argument. -/
  genesis_state : GState
  /-- `HotColdDB::open(..)`. -/
  open_ok : Bool
  /-- `db.load_cold_state_by_slot(Slot::new(0))`: `none` = read error,
  `some none` = missing, `some (some g)` = the stored genesis state. -/
  genesis_from_db : Option (Option GState)
  /-- `db.get_anchor_info()`. -/
  anchor_info : Option AnchorInfo
  /-- `genesis_state.update_tree_hash_cache()`. -/
  genesis_root : Option Hash
  /-- `db.prune_historic_states(..)`. -/
  prune_ok : Bool

/-- `prune_states` from `database_manager/src/lib.rs`, translated
clause by clause; the second component counts the calls made to
`db.prune_historic_states`. -/
def prune_states (e : PruneEnv) : PruneOutcome × Nat :=
  if e.open_ok = false then (.errOpen, 0)
  else
  match e.genesis_from_db with
  | none => (.errGenesisRead, 0)
  | some none => (.errGenesisMissing, 0)
  | some (some genesis_from_db) =>
  if genesis_from_db.genesis_validators_root ≠ e.genesis_state.genesis_validators_root then
    (.errWrongNetwork, 0)
  else
  if e.confirm = false then
    match e.anchor_info with
    | some anchor_info =>
      if anchor_info.state_upper_limit = STATE_UPPER_LIMIT_NO_RETAIN then
        (.okAlreadyPruned, 0)
      else (.errConfirmationRequired, 0)
    | none => (.errConfirmationRequired, 0)
  else
  match e.genesis_root with
  | none => (.errGenesisRoot, 0)
  | some _genesis_state_root =>
  if e.prune_ok = false then (.errPrune, 1)
  else (.okPruned, 1)

end DatabaseManager

/-! ## Theorems -/

open StateAdvance DatabaseManager

/-- C5: the single-flight `Lock` contract — `lock()` returns the
previous value of the flag and sets it, `unlock()` clears it; on a new
lock the sequence `lock(), lock(), lock(), unlock(), lock(), lock()`
returns `false, true, true, (), false, true`. -/
theorem lock_single_flight_contract :
    (∀ l : Lock, (l.lock).1 = l.flag ∧ (l.lock).2 = ⟨true⟩ ∧ l.unlock = ⟨false⟩) ∧
    (Lock.new.lock).1 = false ∧
    (Lock.new.lock.2.lock).1 = true ∧
    (Lock.new.lock.2.lock.2.lock).1 = true ∧
    (Lock.new.lock.2.lock.2.lock.2.unlock.lock).1 = false ∧
    (Lock.new.lock.2.lock.2.lock.2.unlock.lock.2.lock).1 = true := by
  refine ⟨fun l => ⟨rfl, rfl, rfl⟩, rfl, rfl, rfl, rfl, rfl⟩

/-- C7: each scheduler-loop iteration with a readable slot clock sleeps
for exactly `duration_to_next_slot + (slot_duration / 4) * 3` before
attempting a dispatch (which is `duration_to_next_slot +
3/4 * slot_duration` whenever the slot duration is a multiple of four
nanoseconds); when the clock yields no duration, the loop sleeps one
full slot duration and continues, never terminating. -/
theorem timer_sleep_schedule :
    (∀ slot_duration d : Nat,
      timer_sleep slot_duration (some d) = .toDispatch (d + slot_duration / 4 * 3)) ∧
    (∀ slot_duration : Nat,
      timer_sleep slot_duration none = .retryAfter slot_duration) ∧
    (∀ slot_duration d : Nat, 4 ∣ slot_duration →
      d + slot_duration / 4 * 3 = d + 3 * slot_duration / 4) := by
  refine ⟨fun _ _ => rfl, fun _ => rfl, fun sd d hdvd => ?_⟩
  obtain ⟨k, rfl⟩ := hdvd
  omega

/-- Closed instance of `timer_sleep_schedule` at `slot_duration = 12`,
`duration_to_next_slot = 5`. -/
theorem timer_sleep_schedule_witness :
    timer_sleep 12 (some 5) = .toDispatch (5 + 12 / 4 * 3) ∧
    timer_sleep 12 none = .retryAfter 12 ∧
    5 + 12 / 4 * 3 = 5 + 3 * 12 / 4 :=
  ⟨timer_sleep_schedule.1 12 5, timer_sleep_schedule.2.1 12,
   timer_sleep_schedule.2.2 12 5 (by decide)⟩

/-- A fully successful `advance_head` environment: slots-per-epoch 8,
head at slot 15, current slot 15, pre-state at slot 15; advancing to
slot 16 crosses an epoch boundary (epoch 1 to epoch 2) and yields a
summary. -/
def envOk : Env where
  slots_per_epoch := 8
  historic_epochs := 10
  slot_result := some 15
  head_info_pre := some ⟨5, 15, 9⟩
  fork_choice_ok := true
  head_info_post := some ⟨5, 15, 9⟩
  advanced_state := some (some (77, ⟨15, 3⟩))
  per_slot_outcome := some (some 42)
  build_current_ok := true
  build_next_ok := true
  proposer_indices := some [0, 1]
  proposer_insert_ok := true
  shuffling_id_ok := true
  committee_cache_ok := true
  shuffling_lock_ok := true
  attester_ok := true
  tree_hash := fun s => some (s.slot * 1000 + s.payload)
  put_state_ok := true

/-- C6: one scheduler-loop dispatch attempt — when the lock was free the
worker is dispatched, runs `advance_head`, and the lock is released
after completion whatever the result was; when the lock was held, the
overload warning is emitted, no worker is dispatched, and the lock
stays held, so at most one advance-head run is in flight. -/
theorem dispatch_step_single_flight (l : Lock) (e : Env) :
    (l.flag = false →
      (dispatch_step l e).dispatched = true ∧
      (dispatch_step l e).overload_warning = false ∧
      (dispatch_step l e).worker_run = some (advance_head e) ∧
      (dispatch_step l e).lock_after = ⟨false⟩) ∧
    (l.flag = true →
      (dispatch_step l e).dispatched = false ∧
      (dispatch_step l e).overload_warning = true ∧
      (dispatch_step l e).worker_run = none ∧
      (dispatch_step l e).lock_after = ⟨true⟩) := by
  constructor
  · intro h
    simp [dispatch_step, Lock.lock, Lock.unlock, h]
  · intro h
    simp [dispatch_step, Lock.lock, Lock.unlock, h]

/-- Closed instance of `dispatch_step_single_flight`: a free lock
dispatches the worker and ends released; a held lock only warns. -/
theorem dispatch_step_single_flight_witness :
    ((dispatch_step ⟨false⟩ envOk).dispatched = true ∧
      (dispatch_step ⟨false⟩ envOk).overload_warning = false ∧
      (dispatch_step ⟨false⟩ envOk).worker_run = some (advance_head envOk) ∧
      (dispatch_step ⟨false⟩ envOk).lock_after = ⟨false⟩) ∧
    ((dispatch_step ⟨true⟩ envOk).dispatched = false ∧
      (dispatch_step ⟨true⟩ envOk).overload_warning = true ∧
      (dispatch_step ⟨true⟩ envOk).worker_run = none ∧
      (dispatch_step ⟨true⟩ envOk).lock_after = ⟨true⟩) :=
  ⟨(dispatch_step_single_flight ⟨false⟩ envOk).1 rfl,
   (dispatch_step_single_flight ⟨true⟩ envOk).2 rfl⟩

/-- A `prune_states` invocation without `--confirm` against a database
holding a genesis state of a different network. -/
def envWrongNetwork : PruneEnv where
  confirm := false
  genesis_state := ⟨2, 0⟩
  open_ok := true
  genesis_from_db := some (some ⟨1, 0⟩)
  anchor_info := some ⟨7⟩
  genesis_root := some 3
  prune_ok := true

/-- C9 counterexample: without the confirm flag the command can return
the wrong-network error, which neither reports that states were already
pruned nor demands the confirmation flag — though it still never calls
`prune_historic_states`. -/
theorem prune_states_wrong_network_counterexample :
    envWrongNetwork.confirm = false ∧
    (prune_states envWrongNetwork).2 = 0 ∧
    (prune_states envWrongNetwork).1 = .errWrongNetwork ∧
    (prune_states envWrongNetwork).1 ≠ .okAlreadyPruned ∧
    (prune_states envWrongNetwork).1 ≠ .errConfirmationRequired := by
  refine ⟨rfl, rfl, rfl, by decide, by decide⟩

/-- C9 (amended): without the confirm flag `prune_historic_states` is
never called, and — provided the database opens, the stored genesis
state is readable, and it matches the supplied genesis — the command
either reports that states were already pruned or errors demanding the
confirmation flag; `prune_historic_states` is called only when the
confirm flag is set. -/
theorem prune_states_requires_confirmation (e : PruneEnv) :
    (e.confirm = false →
      (prune_states e).2 = 0 ∧
      (∀ g : GState, e.open_ok = true → e.genesis_from_db = some (some g) →
        g.genesis_validators_root = e.genesis_state.genesis_validators_root →
        (prune_states e).1 = .okAlreadyPruned ∨
          (prune_states e).1 = .errConfirmationRequired)) ∧
    ((prune_states e).2 ≠ 0 → e.confirm = true) := by
  constructor
  · intro hc
    constructor
    · unfold prune_states
      repeat' split
      all_goals simp_all
    · intro g hopen hdb hroot
      unfold prune_states
      repeat' split
      all_goals simp_all
  · intro hn
    by_contra hct
    simp only [Bool.not_eq_true] at hct
    apply hn
    unfold prune_states
    repeat' split
    all_goals simp_all

/-- A `prune_states` invocation without `--confirm` against a matching,
not-yet-pruned database. -/
def envNoConfirm : PruneEnv where
  confirm := false
  genesis_state := ⟨1, 0⟩
  open_ok := true
  genesis_from_db := some (some ⟨1, 5⟩)
  anchor_info := some ⟨7⟩
  genesis_root := some 3
  prune_ok := true

/-- Closed instance of `prune_states_requires_confirmation` at
`envNoConfirm`. -/
theorem prune_states_requires_confirmation_witness :
    (prune_states envNoConfirm).2 = 0 ∧
    ((prune_states envNoConfirm).1 = .okAlreadyPruned ∨
      (prune_states envNoConfirm).1 = .errConfirmationRequired) :=
  ⟨((prune_states_requires_confirmation envNoConfirm).1 rfl).1,
   ((prune_states_requires_confirmation envNoConfirm).1 rfl).2 ⟨1, 5⟩ rfl rfl rfl⟩

/-- When the slot clock is readable, the pre-fork-choice head info is
available and the max-distance gate passes, `advance_head` is exactly
its post-gate remainder. -/
theorem advance_head_gate (e : Env) (current_slot : Slot) (pre_head : HeadInfo)
    (hs : e.slot_result = some current_slot)
    (hh : e.head_info_pre = some pre_head)
    (hnlt : ¬ pre_head.slot + MAX_ADVANCE_DISTANCE < current_slot) :
    advance_head e = advance_head_post e current_slot := by
  unfold advance_head
  rw [hs, hh]
  simp [hnlt]

/-- The cache-priming block never constructs the max-distance-exceeded
refusal. -/
theorem prime_caches_ne_max (e : Env) (r : Hash) (s : BState) (eff : Effects)
    (a b : Slot) :
    (prime_caches e r s eff).1 ≠ .error (.maxDistanceExceeded a b) := by
  unfold prime_caches
  repeat' split
  all_goals simp

/-- The post-transition block never constructs the
max-distance-exceeded refusal. -/
theorem advance_rest_ne_max (e : Env) (r : Hash) (ie : Epoch) (s : BState)
    (eff : Effects) (a b : Slot) :
    (advance_rest e r ie s eff).1 ≠ .error (.maxDistanceExceeded a b) := by
  unfold advance_rest
  by_cases hie : ie < s.current_epoch e.slots_per_epoch
  · rcases hpc : prime_caches e r s eff with ⟨res, eff'⟩
    cases res with
    | error err =>
      have hne := prime_caches_ne_max e r s eff a b
      rw [hpc] at hne
      simp only [hie, if_true, hpc]
      repeat' split
      all_goals simp_all
    | ok u =>
      simp only [hie, if_true, hpc]
      repeat' split
      all_goals simp
  · simp only [hie, if_false]
    repeat' split
    all_goals simp

/-- The slot-validation/transition block never constructs the
max-distance-exceeded refusal. -/
theorem advance_tail_ne_max (e : Env) (cs : Slot) (hbr hsr : Hash) (st : BState)
    (eff : Effects) (a b : Slot) :
    (advance_tail e cs hbr hsr st eff).1 ≠ .error (.maxDistanceExceeded a b) := by
  unfold advance_tail
  repeat' split
  all_goals try exact advance_rest_ne_max _ _ _ _ _ a b
  all_goals simp

/-- No branch after the max-distance gate constructs the
max-distance-exceeded refusal. -/
theorem advance_head_post_ne_max (e : Env) (cs a b : Slot) :
    (advance_head_post e cs).1 ≠ .error (.maxDistanceExceeded a b) := by
  unfold advance_head_post
  repeat' split
  all_goals try exact advance_tail_ne_max _ _ _ _ _ _ a b
  all_goals simp

/-- C3: when the head slot observed before fork choice satisfies
`head_slot + MAX_ADVANCE_DISTANCE < current_slot`, `advance_head`
returns the max-distance-exceeded refusal with an empty effect trace —
no fork-choice re-run, no pre-state fetch, no persistence; when
`head_slot + MAX_ADVANCE_DISTANCE ≥ current_slot` that refusal is never
produced. -/
theorem advance_head_max_distance (e : Env) (current_slot : Slot) (pre_head : HeadInfo)
    (hs : e.slot_result = some current_slot)
    (hh : e.head_info_pre = some pre_head) :
    (pre_head.slot + MAX_ADVANCE_DISTANCE < current_slot →
      advance_head e = (.error (.maxDistanceExceeded current_slot pre_head.slot),
        Effects.empty) ∧
      (advance_head e).2.fork_choice_runs = 0 ∧
      (advance_head e).2.state_fetches = [] ∧
      (advance_head e).2.put_states = []) ∧
    (pre_head.slot + MAX_ADVANCE_DISTANCE ≥ current_slot →
      ∀ a b : Slot, (advance_head e).1 ≠ .error (.maxDistanceExceeded a b)) := by
  constructor
  · intro hlt
    have : advance_head e =
        (.error (.maxDistanceExceeded current_slot pre_head.slot), Effects.empty) := by
      unfold advance_head
      rw [hs, hh]
      simp [hlt]
    exact ⟨this, by simp [this, Effects.empty], by simp [this, Effects.empty],
      by simp [this, Effects.empty]⟩
  · intro hge a b
    rw [advance_head_gate e current_slot pre_head hs hh (Nat.not_lt.mpr hge)]
    exact advance_head_post_ne_max e current_slot a b

/-- With fork choice succeeding and a head and a pre-state available,
the post-gate procedure reduces to `advance_tail` on the fetched state,
with the fork-choice run and the state fetch already traced. -/
theorem advance_head_post_fetch (e : Env) (cs : Slot) (hi : HeadInfo)
    (r : Hash) (st : BState)
    (hfc : e.fork_choice_ok = true)
    (hhp : e.head_info_post = some hi)
    (hadv : e.advanced_state = some (some (r, st))) :
    advance_head_post e cs = advance_tail e cs hi.block_root r st
      { Effects.empty with
          fork_choice_runs := 1,
          state_fetches := [(hi.block_root, cs, hi.state_root)] } := by
  unfold advance_head_post
  rw [hfc, hhp, hadv]
  simp

/-- When the transition crossed an epoch boundary and every cache and
store call succeeds, the post-transition block primes both caches,
offers the state to the attester cache, and persists it keyed by its
tree-hash root. -/
theorem advance_rest_success_cross (e : Env) (hbr : Hash) (ie : Epoch)
    (st : BState) (eff : Effects) (idx : List Nat) (root : Hash)
    (hie : ie < st.current_epoch e.slots_per_epoch)
    (hbc : e.build_current_ok = true) (hbn : e.build_next_ok = true)
    (hpi : e.proposer_indices = some idx)
    (hpo : e.proposer_insert_ok = true)
    (hsi : e.shuffling_id_ok = true)
    (hcc : e.committee_cache_ok = true)
    (hsl : e.shuffling_lock_ok = true)
    (hat : e.attester_ok = true)
    (htr : e.tree_hash st = some root)
    (hps : e.put_state_ok = true) :
    advance_rest e hbr ie st eff = (.ok (),
      { eff with
        proposer_inserts :=
          eff.proposer_inserts ++ [(st.current_epoch e.slots_per_epoch, hbr)],
        shuffling_lock_tries := eff.shuffling_lock_tries + 1,
        shuffling_inserts :=
          eff.shuffling_inserts ++ [AttestationShufflingId.next e.slots_per_epoch hbr st],
        attester_offers := eff.attester_offers ++ [hbr],
        put_states := eff.put_states ++ [(root, st)] }) := by
  unfold advance_rest prime_caches
  rw [hpi, htr]
  simp [hie, hbc, hbn, hpo, hsi, hcc, hsl, hat, hps]

/-- When the transition did not cross an epoch boundary and the
remaining calls succeed, the post-transition block inserts nothing in
the proposer or shuffling caches and only offers and persists the
state. -/
theorem advance_rest_success_nocross (e : Env) (hbr : Hash) (ie : Epoch)
    (st : BState) (eff : Effects) (root : Hash)
    (hie : ¬ ie < st.current_epoch e.slots_per_epoch)
    (hbc : e.build_current_ok = true) (hbn : e.build_next_ok = true)
    (hat : e.attester_ok = true)
    (htr : e.tree_hash st = some root)
    (hps : e.put_state_ok = true) :
    advance_rest e hbr ie st eff = (.ok (),
      { eff with
        attester_offers := eff.attester_offers ++ [hbr],
        put_states := eff.put_states ++ [(root, st)] }) := by
  unfold advance_rest
  rw [htr]
  simp [hie, hbc, hbn, hat, hps]

/-- C2: with the gates passed and a pre-state fetched, a pre-state
already at `current_slot + 1` yields the non-fatal already-advanced
result with no transition and no persistence; a pre-state at any other
slot than `current_slot` yields the fatal bad-state-slot result with no
transition and no persistence. -/
theorem advance_head_slot_validation (e : Env) (cs : Slot) (ph hi : HeadInfo)
    (r : Hash) (st : BState)
    (hs : e.slot_result = some cs)
    (hh : e.head_info_pre = some ph)
    (hd : ¬ ph.slot + MAX_ADVANCE_DISTANCE < cs)
    (hfc : e.fork_choice_ok = true)
    (hhp : e.head_info_post = some hi)
    (hadv : e.advanced_state = some (some (r, st))) :
    (st.slot = cs + 1 →
      (advance_head e).1 = .error (.stateAlreadyAdvanced hi.block_root) ∧
      (advance_head e).2.transitions = 0 ∧
      (advance_head e).2.put_states = []) ∧
    (st.slot ≠ cs → st.slot ≠ cs + 1 →
      (advance_head e).1 = .error (.badStateSlot st.slot cs) ∧
      (advance_head e).2.transitions = 0 ∧
      (advance_head e).2.put_states = []) := by
  have hred : advance_head e = advance_tail e cs hi.block_root r st
      { Effects.empty with
          fork_choice_runs := 1,
          state_fetches := [(hi.block_root, cs, hi.state_root)] } :=
    (advance_head_gate e cs ph hs hh hd).trans
      (advance_head_post_fetch e cs hi r st hfc hhp hadv)
  constructor
  · intro h1
    rw [hred]
    unfold advance_tail
    simp [h1, Effects.empty]
  · intro h1 h2
    rw [hred]
    unfold advance_tail
    simp [h1, h2, Effects.empty]

/-- `envOk` with the fetched pre-state already advanced to slot 16. -/
def envAlready : Env := { envOk with advanced_state := some (some (77, ⟨16, 3⟩)) }

/-- `envOk` with the fetched pre-state at the unrelated slot 99. -/
def envBad : Env := { envOk with advanced_state := some (some (77, ⟨99, 3⟩)) }

/-- Closed instance of `advance_head_slot_validation`: at `envAlready`
the already-advanced branch, at `envBad` the bad-state-slot branch. -/
theorem advance_head_slot_validation_witness :
    ((advance_head envAlready).1 = .error (.stateAlreadyAdvanced 5) ∧
      (advance_head envAlready).2.transitions = 0 ∧
      (advance_head envAlready).2.put_states = []) ∧
    ((advance_head envBad).1 = .error (.badStateSlot 99 15) ∧
      (advance_head envBad).2.transitions = 0 ∧
      (advance_head envBad).2.put_states = []) :=
  ⟨(advance_head_slot_validation envAlready 15 ⟨5, 15, 9⟩ ⟨5, 15, 9⟩ 77 ⟨16, 3⟩
      rfl rfl (by decide) rfl rfl rfl).1 rfl,
   (advance_head_slot_validation envBad 15 ⟨5, 15, 9⟩ ⟨5, 15, 9⟩ 77 ⟨99, 3⟩
      rfl rfl (by decide) rfl rfl rfl).2 (by decide) (by decide)⟩

/-- The epoch-summary handling only touches the metrics and
validator-monitor entries of the trace. -/
theorem observe_summary_fields (e : Env) (cs : Slot) (st : BState)
    (osum : Option Summary) (eff : Effects) :
    (observe_summary e cs st osum eff).fork_choice_runs = eff.fork_choice_runs ∧
    (observe_summary e cs st osum eff).state_fetches = eff.state_fetches ∧
    (observe_summary e cs st osum eff).transitions = eff.transitions ∧
    (observe_summary e cs st osum eff).proposer_inserts = eff.proposer_inserts ∧
    (observe_summary e cs st osum eff).shuffling_lock_tries = eff.shuffling_lock_tries ∧
    (observe_summary e cs st osum eff).shuffling_inserts = eff.shuffling_inserts ∧
    (observe_summary e cs st osum eff).attester_offers = eff.attester_offers ∧
    (observe_summary e cs st osum eff).put_states = eff.put_states := by
  cases osum with
  | none => simp [observe_summary]
  | some s =>
    simp only [observe_summary]
    split
    all_goals simp

/-- Projections of a fully successful post-transition block, covering
both the crossing and the non-crossing case. -/
theorem advance_rest_success_proj (e : Env) (hbr : Hash) (ie : Epoch)
    (st : BState) (eff : Effects) (idx : List Nat) (root : Hash)
    (hbc : e.build_current_ok = true) (hbn : e.build_next_ok = true)
    (hpi : e.proposer_indices = some idx)
    (hpo : e.proposer_insert_ok = true)
    (hsi : e.shuffling_id_ok = true)
    (hcc : e.committee_cache_ok = true)
    (hsl : e.shuffling_lock_ok = true)
    (hat : e.attester_ok = true)
    (htr : e.tree_hash st = some root)
    (hpu : e.put_state_ok = true) :
    (advance_rest e hbr ie st eff).1 = .ok () ∧
    (advance_rest e hbr ie st eff).2.transitions = eff.transitions ∧
    (advance_rest e hbr ie st eff).2.put_states = eff.put_states ++ [(root, st)] := by
  by_cases hie : ie < st.current_epoch e.slots_per_epoch
  · rw [advance_rest_success_cross e hbr ie st eff idx root hie hbc hbn hpi hpo hsi
      hcc hsl hat htr hpu]
    simp
  · rw [advance_rest_success_nocross e hbr ie st eff root hie hbc hbn hat htr hpu]
    simp

/-- With the pre-state at exactly `current_slot`, a successful
transition and every later collaborator call succeeding, the
validation/transition block succeeds, traces exactly the one
transition, and appends exactly one persisted state — the pre-state
advanced by one slot, keyed by its tree-hash root. -/
theorem advance_tail_success_proj (e : Env) (cs : Slot) (hbr hsr : Hash)
    (st : BState) (eff : Effects) (osum : Option Summary) (idx : List Nat) (root : Hash)
    (hslot : st.slot = cs)
    (hps : e.per_slot_outcome = some osum)
    (hbc : e.build_current_ok = true) (hbn : e.build_next_ok = true)
    (hpi : e.proposer_indices = some idx)
    (hpo : e.proposer_insert_ok = true)
    (hsi : e.shuffling_id_ok = true)
    (hcc : e.committee_cache_ok = true)
    (hsl : e.shuffling_lock_ok = true)
    (hat : e.attester_ok = true)
    (htr : e.tree_hash { st with slot := st.slot + 1 } = some root)
    (hpu : e.put_state_ok = true) :
    (advance_tail e cs hbr hsr st eff).1 = .ok () ∧
    (advance_tail e cs hbr hsr st eff).2.transitions = 1 ∧
    (advance_tail e cs hbr hsr st eff).2.put_states =
      eff.put_states ++ [(root, { st with slot := st.slot + 1 })] := by
  subst hslot
  unfold advance_tail
  rw [if_neg (Nat.lt_succ_self st.slot).ne,
    if_neg (by simp : ¬ st.slot ≠ st.slot), hps]
  simp only [per_slot_processing, Option.map_some']
  have hobs := observe_summary_fields e st.slot { st with slot := st.slot + 1 } osum
    { eff with transitions := 1 }
  have hproj := advance_rest_success_proj e hbr
    (BState.current_epoch e.slots_per_epoch st) { st with slot := st.slot + 1 }
    (observe_summary e st.slot { st with slot := st.slot + 1 } osum
      { eff with transitions := 1 })
    idx root hbc hbn hpi hpo hsi hcc hsl hat htr hpu
  refine ⟨hproj.1, ?_, ?_⟩
  · rw [hproj.2.1, hobs.2.2.1]
  · rw [hproj.2.2, hobs.2.2.2.2.2.2.2]

/-- C1: with the gates passed, a pre-state fetched at exactly
`current_slot`, and every subsequent collaborator call succeeding, the
procedure applies the one-slot transition exactly once and persists via
`put_state` exactly one state, whose slot is `current_slot + 1`, keyed
by that state's freshly computed tree-hash root. -/
theorem advance_head_advances_one_slot (e : Env) (cs : Slot) (ph hi : HeadInfo)
    (r root : Hash) (st : BState) (osum : Option Summary) (idx : List Nat)
    (hs : e.slot_result = some cs)
    (hh : e.head_info_pre = some ph)
    (hd : ¬ ph.slot + MAX_ADVANCE_DISTANCE < cs)
    (hfc : e.fork_choice_ok = true)
    (hhp : e.head_info_post = some hi)
    (hadv : e.advanced_state = some (some (r, st)))
    (hslot : st.slot = cs)
    (hps : e.per_slot_outcome = some osum)
    (hbc : e.build_current_ok = true) (hbn : e.build_next_ok = true)
    (hpi : e.proposer_indices = some idx)
    (hpo : e.proposer_insert_ok = true)
    (hsi : e.shuffling_id_ok = true)
    (hcc : e.committee_cache_ok = true)
    (hsl : e.shuffling_lock_ok = true)
    (hat : e.attester_ok = true)
    (htr : e.tree_hash { st with slot := cs + 1 } = some root)
    (hpu : e.put_state_ok = true) :
    (advance_head e).1 = .ok () ∧
    (advance_head e).2.transitions = 1 ∧
    (advance_head e).2.put_states = [(root, { st with slot := cs + 1 })] ∧
    ({ st with slot := cs + 1 } : BState).slot = cs + 1 := by
  have hred : advance_head e = advance_tail e cs hi.block_root r st
      { Effects.empty with
          fork_choice_runs := 1,
          state_fetches := [(hi.block_root, cs, hi.state_root)] } :=
    (advance_head_gate e cs ph hs hh hd).trans
      (advance_head_post_fetch e cs hi r st hfc hhp hadv)
  subst hslot
  have htail := advance_tail_success_proj e st.slot hi.block_root r st
    { Effects.empty with
        fork_choice_runs := 1,
        state_fetches := [(hi.block_root, st.slot, hi.state_root)] }
    osum idx root rfl hps hbc hbn hpi hpo hsi hcc hsl hat htr hpu
  rw [hred]
  refine ⟨htail.1, htail.2.1, ?_, rfl⟩
  rw [htail.2.2]
  simp [Effects.empty]

/-- Closed instance of `advance_head_advances_one_slot` at `envOk`:
head and pre-state at slot 15, persisted state at slot 16 keyed by its
tree-hash root. -/
theorem advance_head_advances_one_slot_witness :
    (advance_head envOk).1 = .ok () ∧
    (advance_head envOk).2.transitions = 1 ∧
    (advance_head envOk).2.put_states = [(16003, ⟨16, 3⟩)] ∧
    (⟨16, 3⟩ : BState).slot = 15 + 1 :=
  advance_head_advances_one_slot envOk 15 ⟨5, 15, 9⟩ ⟨5, 15, 9⟩ 77 16003 ⟨15, 3⟩
    (some 42) [0, 1] rfl rfl (by decide) rfl rfl rfl rfl rfl rfl rfl rfl rfl rfl rfl
    rfl rfl rfl rfl

/-- When every call inside the cache-priming block succeeds, it inserts
exactly one proposer entry — the state's current epoch keyed by the
decision block — and exactly one shuffling entry — the state's next
epoch relative to the same decision block. -/
theorem prime_caches_success (e : Env) (hbr : Hash) (st : BState) (eff : Effects)
    (idx : List Nat)
    (hpi : e.proposer_indices = some idx)
    (hpo : e.proposer_insert_ok = true)
    (hsi : e.shuffling_id_ok = true)
    (hcc : e.committee_cache_ok = true)
    (hsl : e.shuffling_lock_ok = true) :
    prime_caches e hbr st eff = (.ok (),
      { eff with
        proposer_inserts :=
          eff.proposer_inserts ++ [(st.current_epoch e.slots_per_epoch, hbr)],
        shuffling_lock_tries := eff.shuffling_lock_tries + 1,
        shuffling_inserts :=
          eff.shuffling_inserts ++ [AttestationShufflingId.next e.slots_per_epoch hbr st] }) := by
  unfold prime_caches
  rw [hpi]
  simp [hpo, hsi, hcc, hsl]

/-- In the crossing case, with the priming calls succeeding, the
post-transition block appends exactly one proposer insert and one
shuffling insert, whatever the later attester/persistence calls do. -/
theorem advance_rest_cross_inserts (e : Env) (hbr : Hash) (ie : Epoch)
    (st : BState) (eff : Effects) (idx : List Nat)
    (hie : ie < st.current_epoch e.slots_per_epoch)
    (hbc : e.build_current_ok = true) (hbn : e.build_next_ok = true)
    (hpi : e.proposer_indices = some idx)
    (hpo : e.proposer_insert_ok = true)
    (hsi : e.shuffling_id_ok = true)
    (hcc : e.committee_cache_ok = true)
    (hsl : e.shuffling_lock_ok = true) :
    (advance_rest e hbr ie st eff).2.proposer_inserts =
      eff.proposer_inserts ++ [(st.current_epoch e.slots_per_epoch, hbr)] ∧
    (advance_rest e hbr ie st eff).2.shuffling_inserts =
      eff.shuffling_inserts ++ [AttestationShufflingId.next e.slots_per_epoch hbr st] := by
  unfold advance_rest
  rw [if_neg (by simp [hbc] : ¬ e.build_current_ok = false),
    if_neg (by simp [hbn] : ¬ e.build_next_ok = false),
    if_pos hie, prime_caches_success e hbr st eff idx hpi hpo hsi hcc hsl]
  dsimp only
  repeat' split
  all_goals simp

/-- In the non-crossing case the post-transition block never touches
the proposer or shuffling caches, whatever else happens. -/
theorem advance_rest_nc_inserts (e : Env) (hbr : Hash) (ie : Epoch)
    (st : BState) (eff : Effects)
    (hnc : ¬ ie < st.current_epoch e.slots_per_epoch) :
    (advance_rest e hbr ie st eff).2.proposer_inserts = eff.proposer_inserts ∧
    (advance_rest e hbr ie st eff).2.shuffling_inserts = eff.shuffling_inserts := by
  unfold advance_rest
  rw [if_neg hnc]
  dsimp only
  repeat' split
  all_goals simp

/-- When the transition does not advance the epoch, the
validation/transition block leaves the proposer and shuffling insert
traces untouched, whatever else happens. -/
theorem advance_tail_nc_inserts (e : Env) (cs : Slot) (hbr hsr : Hash) (st : BState)
    (eff : Effects)
    (hnc : ¬ BState.current_epoch e.slots_per_epoch st <
      slotEpoch e.slots_per_epoch (st.slot + 1)) :
    (advance_tail e cs hbr hsr st eff).2.proposer_inserts = eff.proposer_inserts ∧
    (advance_tail e cs hbr hsr st eff).2.shuffling_inserts = eff.shuffling_inserts := by
  unfold advance_tail
  rcases hpo : e.per_slot_outcome with _ | o
  · simp only [per_slot_processing, hpo, Option.map_none']
    repeat' split
    all_goals exact ⟨rfl, rfl⟩
  · simp only [per_slot_processing, hpo, Option.map_some']
    repeat' split
    all_goals try exact ⟨rfl, rfl⟩
    have h1 := advance_rest_nc_inserts e hbr (BState.current_epoch e.slots_per_epoch st)
      { st with slot := st.slot + 1 }
      (observe_summary e cs { st with slot := st.slot + 1 } o
        { eff with transitions := 1 }) hnc
    have h2 := observe_summary_fields e cs { st with slot := st.slot + 1 } o
      { eff with transitions := 1 }
    exact ⟨h1.1.trans h2.2.2.2.1, h1.2.trans h2.2.2.2.2.2.1⟩

/-- When the transition advances the epoch, the validation/transition
block appends exactly one proposer insert — the post-state's epoch
keyed by the decision block — and exactly one shuffling insert — the
post-state's next epoch relative to the same decision block. -/
theorem advance_tail_cross_inserts (e : Env) (cs : Slot) (hbr hsr : Hash)
    (st : BState) (eff : Effects) (osum : Option Summary) (idx : List Nat)
    (hslot : st.slot = cs)
    (hps : e.per_slot_outcome = some osum)
    (hcross : BState.current_epoch e.slots_per_epoch st <
      slotEpoch e.slots_per_epoch (st.slot + 1))
    (hbc : e.build_current_ok = true) (hbn : e.build_next_ok = true)
    (hpi : e.proposer_indices = some idx)
    (hpo : e.proposer_insert_ok = true)
    (hsi : e.shuffling_id_ok = true)
    (hcc : e.committee_cache_ok = true)
    (hsl : e.shuffling_lock_ok = true) :
    (advance_tail e cs hbr hsr st eff).2.proposer_inserts =
      eff.proposer_inserts ++ [(slotEpoch e.slots_per_epoch (st.slot + 1), hbr)] ∧
    (advance_tail e cs hbr hsr st eff).2.shuffling_inserts =
      eff.shuffling_inserts ++
        [⟨slotEpoch e.slots_per_epoch (st.slot + 1) + 1, hbr⟩] := by
  subst hslot
  unfold advance_tail
  rw [if_neg (Nat.lt_succ_self st.slot).ne,
    if_neg (by simp : ¬ st.slot ≠ st.slot), hps]
  simp only [per_slot_processing, Option.map_some']
  have h1 := advance_rest_cross_inserts e hbr (BState.current_epoch e.slots_per_epoch st)
    { st with slot := st.slot + 1 }
    (observe_summary e st.slot { st with slot := st.slot + 1 } osum
      { eff with transitions := 1 })
    idx hcross hbc hbn hpi hpo hsi hcc hsl
  have h2 := observe_summary_fields e st.slot { st with slot := st.slot + 1 } osum
    { eff with transitions := 1 }
  constructor
  · rw [h1.1, h2.2.2.2.1]
    rfl
  · rw [h1.2, h2.2.2.2.2.2.1]
    rfl

/-- Any proposer or shuffling insert traced by `advance_head` implies a
fetched pre-state whose one-slot advance crosses an epoch boundary: no
insert ever happens when the epoch would not change. -/
theorem advance_head_inserts_only_on_cross (e : Env) :
    ((advance_head e).2.proposer_inserts ≠ [] ∨
      (advance_head e).2.shuffling_inserts ≠ []) →
    ∃ r st, e.advanced_state = some (some (r, st)) ∧
      BState.current_epoch e.slots_per_epoch st <
        slotEpoch e.slots_per_epoch (st.slot + 1) := by
  intro h
  rcases hsr : e.slot_result with _ | cs
  · have hev : advance_head e = (.error (.beaconChain (.other 0)), Effects.empty) := by
      unfold advance_head; rw [hsr]
    rw [hev] at h; simp [Effects.empty] at h
  rcases hhp : e.head_info_pre with _ | ph
  · have hev : advance_head e = (.error (.beaconChain (.other 1)), Effects.empty) := by
      unfold advance_head; rw [hsr, hhp]
    rw [hev] at h; simp [Effects.empty] at h
  by_cases hgate : ph.slot + MAX_ADVANCE_DISTANCE < cs
  · have hev : advance_head e =
        (.error (.maxDistanceExceeded cs ph.slot), Effects.empty) := by
      unfold advance_head; rw [hsr, hhp]; simp [hgate]
    rw [hev] at h; simp [Effects.empty] at h
  have hpost := advance_head_gate e cs ph hsr hhp hgate
  by_cases hfc : e.fork_choice_ok = false
  · have hev : advance_head_post e cs = (.error (.beaconChain (.other 2)),
        { Effects.empty with fork_choice_runs := 1 }) := by
      unfold advance_head_post; rw [if_pos hfc]
    rw [hpost, hev] at h; simp [Effects.empty] at h
  rcases hhp2 : e.head_info_post with _ | hi
  · have hev : advance_head_post e cs = (.error (.beaconChain (.other 3)),
        { Effects.empty with fork_choice_runs := 1 }) := by
      unfold advance_head_post; rw [if_neg hfc, hhp2]
    rw [hpost, hev] at h; simp [Effects.empty] at h
  rcases hadv : e.advanced_state with _ | ost
  · have hev : advance_head_post e cs = (.error (.store 0),
        { Effects.empty with
            fork_choice_runs := 1,
            state_fetches := [(hi.block_root, cs, hi.state_root)] }) := by
      unfold advance_head_post; rw [if_neg hfc, hhp2, hadv]
    rw [hpost, hev] at h; simp [Effects.empty] at h
  rcases ost with _ | rst
  · have hev : advance_head_post e cs = (.error (.headMissingFromSnapshotCache hi.block_root),
        { Effects.empty with
            fork_choice_runs := 1,
            state_fetches := [(hi.block_root, cs, hi.state_root)] }) := by
      unfold advance_head_post; rw [if_neg hfc, hhp2, hadv]
    rw [hpost, hev] at h; simp [Effects.empty] at h
  rcases rst with ⟨r, st⟩
  have hfc' : e.fork_choice_ok = true := by
    cases hb : e.fork_choice_ok
    · exact absurd hb hfc
    · rfl
  have hred : advance_head e = advance_tail e cs hi.block_root r st
      { Effects.empty with
          fork_choice_runs := 1,
          state_fetches := [(hi.block_root, cs, hi.state_root)] } :=
    hpost.trans (advance_head_post_fetch e cs hi r st hfc' hhp2 hadv)
  by_cases hcross : BState.current_epoch e.slots_per_epoch st <
      slotEpoch e.slots_per_epoch (st.slot + 1)
  · exact ⟨r, st, rfl, hcross⟩
  · have hnc := advance_tail_nc_inserts e cs hi.block_root r st
      { Effects.empty with
          fork_choice_runs := 1,
          state_fetches := [(hi.block_root, cs, hi.state_root)] } hcross
    rw [hred] at h
    rw [hnc.1, hnc.2] at h
    simp [Effects.empty] at h

/-- C4: with the gates passed, a pre-state fetched at `current_slot`, a
successful transition and the priming calls succeeding, an
epoch-crossing advance inserts exactly one proposer-cache entry — the
post-state's epoch `E+1` keyed by the pre-advance head block root — and
exactly one shuffling-cache entry — the shuffling id of the
post-state's next epoch `E+2` relative to the same root; and, for every
invocation whatsoever, any insert in either cache implies the fetched
pre-state's advance crossed an epoch boundary, so no insert happens
when the epoch does not change. -/
theorem advance_head_epoch_boundary_cache_priming (e : Env) (cs : Slot)
    (ph hi : HeadInfo) (r : Hash) (st : BState) (osum : Option Summary) (idx : List Nat)
    (hs : e.slot_result = some cs)
    (hh : e.head_info_pre = some ph)
    (hd : ¬ ph.slot + MAX_ADVANCE_DISTANCE < cs)
    (hfc : e.fork_choice_ok = true)
    (hhp : e.head_info_post = some hi)
    (hadv : e.advanced_state = some (some (r, st)))
    (hslot : st.slot = cs)
    (hps : e.per_slot_outcome = some osum)
    (hbc : e.build_current_ok = true) (hbn : e.build_next_ok = true)
    (hpi : e.proposer_indices = some idx)
    (hpo : e.proposer_insert_ok = true)
    (hsi : e.shuffling_id_ok = true)
    (hcc : e.committee_cache_ok = true)
    (hsl : e.shuffling_lock_ok = true) :
    (BState.current_epoch e.slots_per_epoch st <
        slotEpoch e.slots_per_epoch (st.slot + 1) →
      (advance_head e).2.proposer_inserts =
        [(slotEpoch e.slots_per_epoch (st.slot + 1), hi.block_root)] ∧
      (advance_head e).2.shuffling_inserts =
        [⟨slotEpoch e.slots_per_epoch (st.slot + 1) + 1, hi.block_root⟩]) ∧
    (∀ e' : Env,
      ((advance_head e').2.proposer_inserts ≠ [] ∨
        (advance_head e').2.shuffling_inserts ≠ []) →
      ∃ r' st', e'.advanced_state = some (some (r', st')) ∧
        BState.current_epoch e'.slots_per_epoch st' <
          slotEpoch e'.slots_per_epoch (st'.slot + 1)) := by
  have hred : advance_head e = advance_tail e cs hi.block_root r st
      { Effects.empty with
          fork_choice_runs := 1,
          state_fetches := [(hi.block_root, cs, hi.state_root)] } :=
    (advance_head_gate e cs ph hs hh hd).trans
      (advance_head_post_fetch e cs hi r st hfc hhp hadv)
  constructor
  · intro hcross
    have hc := advance_tail_cross_inserts e cs hi.block_root r st
      { Effects.empty with
          fork_choice_runs := 1,
          state_fetches := [(hi.block_root, cs, hi.state_root)] }
      osum idx hslot hps hcross hbc hbn hpi hpo hsi hcc hsl
    rw [hred]
    rw [hc.1, hc.2]
    simp [Effects.empty]
  · exact fun e' h => advance_head_inserts_only_on_cross e' h

/-- Closed instance of `advance_head_epoch_boundary_cache_priming` at
`envOk`: the slot-15-to-16 advance crosses from epoch 1 to epoch 2 with
8 slots per epoch, priming the proposer cache for epoch 2 and the
shuffling cache for epoch 3, both keyed by head block root 5. -/
theorem advance_head_epoch_boundary_cache_priming_witness :
    ((advance_head envOk).2.proposer_inserts = [(2, 5)] ∧
      (advance_head envOk).2.shuffling_inserts = [⟨3, 5⟩]) ∧
    (∃ r' st', envOk.advanced_state = some (some (r', st')) ∧
      BState.current_epoch envOk.slots_per_epoch st' <
        slotEpoch envOk.slots_per_epoch (st'.slot + 1)) := by
  have hthm := advance_head_epoch_boundary_cache_priming envOk 15 ⟨5, 15, 9⟩ ⟨5, 15, 9⟩
    77 ⟨15, 3⟩ (some 42) [0, 1] rfl rfl (by decide) rfl rfl rfl rfl rfl rfl rfl rfl
    rfl rfl rfl rfl
  have hcr := hthm.1 (by decide)
  exact ⟨hcr, hthm.2 envOk (Or.inl (by rw [hcr.1]; decide))⟩

/-- When the bounded wait on the shuffling cache times out, the priming
block fails with the attestation-cache-lock-timeout error after exactly
one (failed) acquisition attempt and before any shuffling insert. -/
theorem prime_caches_lock_timeout (e : Env) (hbr : Hash) (st : BState) (eff : Effects)
    (idx : List Nat)
    (hpi : e.proposer_indices = some idx)
    (hpo : e.proposer_insert_ok = true)
    (hsi : e.shuffling_id_ok = true)
    (hcc : e.committee_cache_ok = true)
    (hsl : e.shuffling_lock_ok = false) :
    prime_caches e hbr st eff = (.error (.beaconChain .attestationCacheLockTimeout),
      { eff with
        proposer_inserts :=
          eff.proposer_inserts ++ [(st.current_epoch e.slots_per_epoch, hbr)],
        shuffling_lock_tries := eff.shuffling_lock_tries + 1 }) := by
  unfold prime_caches
  rw [hpi]
  simp [hpo, hsi, hcc, hsl]

/-- The shuffling-lock timeout aborts the whole post-transition block
in the crossing case. -/
theorem advance_rest_lock_timeout (e : Env) (hbr : Hash) (ie : Epoch)
    (st : BState) (eff : Effects) (idx : List Nat)
    (hie : ie < st.current_epoch e.slots_per_epoch)
    (hbc : e.build_current_ok = true) (hbn : e.build_next_ok = true)
    (hpi : e.proposer_indices = some idx)
    (hpo : e.proposer_insert_ok = true)
    (hsi : e.shuffling_id_ok = true)
    (hcc : e.committee_cache_ok = true)
    (hsl : e.shuffling_lock_ok = false) :
    advance_rest e hbr ie st eff = (.error (.beaconChain .attestationCacheLockTimeout),
      { eff with
        proposer_inserts :=
          eff.proposer_inserts ++ [(st.current_epoch e.slots_per_epoch, hbr)],
        shuffling_lock_tries := eff.shuffling_lock_tries + 1 }) := by
  unfold advance_rest
  rw [if_neg (by simp [hbc] : ¬ e.build_current_ok = false),
    if_neg (by simp [hbn] : ¬ e.build_next_ok = false),
    if_pos hie, prime_caches_lock_timeout e hbr st eff idx hpi hpo hsi hcc hsl]

/-- The shuffling-lock timeout aborts the validation/transition block:
no attester offer and no persistence happen, the acquisition is
attempted exactly once, and no shuffling insert is made. -/
theorem advance_tail_lock_timeout (e : Env) (cs : Slot) (hbr hsr : Hash)
    (st : BState) (eff : Effects) (osum : Option Summary) (idx : List Nat)
    (hslot : st.slot = cs)
    (hps : e.per_slot_outcome = some osum)
    (hcross : BState.current_epoch e.slots_per_epoch st <
      slotEpoch e.slots_per_epoch (st.slot + 1))
    (hbc : e.build_current_ok = true) (hbn : e.build_next_ok = true)
    (hpi : e.proposer_indices = some idx)
    (hpo : e.proposer_insert_ok = true)
    (hsi : e.shuffling_id_ok = true)
    (hcc : e.committee_cache_ok = true)
    (hsl : e.shuffling_lock_ok = false) :
    (advance_tail e cs hbr hsr st eff).1 =
      .error (.beaconChain .attestationCacheLockTimeout) ∧
    (advance_tail e cs hbr hsr st eff).2.attester_offers = eff.attester_offers ∧
    (advance_tail e cs hbr hsr st eff).2.put_states = eff.put_states ∧
    (advance_tail e cs hbr hsr st eff).2.shuffling_lock_tries =
      eff.shuffling_lock_tries + 1 ∧
    (advance_tail e cs hbr hsr st eff).2.shuffling_inserts = eff.shuffling_inserts := by
  subst hslot
  unfold advance_tail
  rw [if_neg (Nat.lt_succ_self st.slot).ne,
    if_neg (by simp : ¬ st.slot ≠ st.slot), hps]
  simp only [per_slot_processing, Option.map_some']
  have hobs := observe_summary_fields e st.slot { st with slot := st.slot + 1 } osum
    { eff with transitions := 1 }
  rw [advance_rest_lock_timeout e hbr (BState.current_epoch e.slots_per_epoch st)
    { st with slot := st.slot + 1 }
    (observe_summary e st.slot { st with slot := st.slot + 1 } osum
      { eff with transitions := 1 })
    idx hcross hbc hbn hpi hpo hsi hcc hsl]
  refine ⟨rfl, ?_, ?_, ?_, ?_⟩
  · exact hobs.2.2.2.2.2.2.1
  · exact hobs.2.2.2.2.2.2.2
  · show (observe_summary e st.slot { st with slot := st.slot + 1 } osum
      { eff with transitions := 1 }).shuffling_lock_tries + 1 =
        eff.shuffling_lock_tries + 1
    rw [hobs.2.2.2.2.1]
  · exact hobs.2.2.2.2.2.1

/-- C8: with the gates passed, a pre-state at `current_slot`, an
epoch-crossing transition and the priming calls up to the shuffling
cache succeeding, a timeout acquiring the shuffling cache aborts the
whole invocation with the attestation-cache-lock-timeout error: no
attester-cache offer, no persistence, no shuffling insert, and exactly
one (unretried) acquisition attempt. -/
theorem advance_head_shuffling_lock_timeout (e : Env) (cs : Slot)
    (ph hi : HeadInfo) (r : Hash) (st : BState) (osum : Option Summary) (idx : List Nat)
    (hs : e.slot_result = some cs)
    (hh : e.head_info_pre = some ph)
    (hd : ¬ ph.slot + MAX_ADVANCE_DISTANCE < cs)
    (hfc : e.fork_choice_ok = true)
    (hhp : e.head_info_post = some hi)
    (hadv : e.advanced_state = some (some (r, st)))
    (hslot : st.slot = cs)
    (hps : e.per_slot_outcome = some osum)
    (hcross : BState.current_epoch e.slots_per_epoch st <
      slotEpoch e.slots_per_epoch (st.slot + 1))
    (hbc : e.build_current_ok = true) (hbn : e.build_next_ok = true)
    (hpi : e.proposer_indices = some idx)
    (hpo : e.proposer_insert_ok = true)
    (hsi : e.shuffling_id_ok = true)
    (hcc : e.committee_cache_ok = true)
    (hsl : e.shuffling_lock_ok = false) :
    (advance_head e).1 = .error (.beaconChain .attestationCacheLockTimeout) ∧
    (advance_head e).2.attester_offers = [] ∧
    (advance_head e).2.put_states = [] ∧
    (advance_head e).2.shuffling_lock_tries = 1 ∧
    (advance_head e).2.shuffling_inserts = [] := by
  have hred : advance_head e = advance_tail e cs hi.block_root r st
      { Effects.empty with
          fork_choice_runs := 1,
          state_fetches := [(hi.block_root, cs, hi.state_root)] } :=
    (advance_head_gate e cs ph hs hh hd).trans
      (advance_head_post_fetch e cs hi r st hfc hhp hadv)
  have ht := advance_tail_lock_timeout e cs hi.block_root r st
    { Effects.empty with
        fork_choice_runs := 1,
        state_fetches := [(hi.block_root, cs, hi.state_root)] }
    osum idx hslot hps hcross hbc hbn hpi hpo hsi hcc hsl
  rw [hred]
  refine ⟨ht.1, ?_, ?_, ?_, ?_⟩
  · rw [ht.2.1]
    rfl
  · rw [ht.2.2.1]
    rfl
  · rw [ht.2.2.2.1]
    rfl
  · rw [ht.2.2.2.2]
    rfl

/-- `envOk` with the shuffling-cache bounded wait timing out. -/
def envLockTimeout : Env := { envOk with shuffling_lock_ok := false }

/-- Closed instance of `advance_head_shuffling_lock_timeout` at
`envLockTimeout`. -/
theorem advance_head_shuffling_lock_timeout_witness :
    (advance_head envLockTimeout).1 =
      .error (.beaconChain .attestationCacheLockTimeout) ∧
    (advance_head envLockTimeout).2.attester_offers = [] ∧
    (advance_head envLockTimeout).2.put_states = [] ∧
    (advance_head envLockTimeout).2.shuffling_lock_tries = 1 ∧
    (advance_head envLockTimeout).2.shuffling_inserts = [] :=
  advance_head_shuffling_lock_timeout envLockTimeout 15 ⟨5, 15, 9⟩ ⟨5, 15, 9⟩ 77
    ⟨15, 3⟩ (some 42) [0, 1] rfl rfl (by decide) rfl rfl rfl rfl rfl (by decide)
    rfl rfl rfl rfl rfl rfl rfl

/-- With a summary present, the epoch-summary handling observes metrics
exactly once unconditionally, and records the validator-monitor call
exactly when the post-state's epoch plus the historic window reaches
the wall-clock epoch. -/
theorem observe_summary_some (e : Env) (cs : Slot) (st : BState) (s : Summary)
    (eff : Effects) :
    (observe_summary e cs st (some s) eff).metrics_observes =
      eff.metrics_observes + 1 ∧
    (st.current_epoch e.slots_per_epoch + e.historic_epochs ≥
        slotEpoch e.slots_per_epoch cs →
      (observe_summary e cs st (some s) eff).monitor_calls =
        eff.monitor_calls ++ [(st.current_epoch e.slots_per_epoch, s)]) ∧
    (¬ st.current_epoch e.slots_per_epoch + e.historic_epochs ≥
        slotEpoch e.slots_per_epoch cs →
      (observe_summary e cs st (some s) eff).monitor_calls = eff.monitor_calls) := by
  unfold observe_summary
  by_cases hc : st.current_epoch e.slots_per_epoch + e.historic_epochs ≥
      slotEpoch e.slots_per_epoch cs
  · simp [hc]
  · simp [hc]

/-- The priming block never touches the metrics or validator-monitor
entries of the trace. -/
theorem prime_caches_monitor_fields (e : Env) (hbr : Hash) (st : BState)
    (eff : Effects) :
    (prime_caches e hbr st eff).2.metrics_observes = eff.metrics_observes ∧
    (prime_caches e hbr st eff).2.monitor_calls = eff.monitor_calls := by
  unfold prime_caches
  repeat' split
  all_goals simp

/-- The post-transition block never touches the metrics or
validator-monitor entries of the trace. -/
theorem advance_rest_monitor_fields (e : Env) (hbr : Hash) (ie : Epoch)
    (st : BState) (eff : Effects) :
    (advance_rest e hbr ie st eff).2.metrics_observes = eff.metrics_observes ∧
    (advance_rest e hbr ie st eff).2.monitor_calls = eff.monitor_calls := by
  unfold advance_rest
  by_cases hie : ie < st.current_epoch e.slots_per_epoch
  · rw [if_pos hie]
    rcases hpc : prime_caches e hbr st eff with ⟨res, effP⟩
    have hfl := prime_caches_monitor_fields e hbr st eff
    rw [hpc] at hfl
    cases res with
    | error err =>
      repeat' split
      all_goals simp_all
    | ok u =>
      repeat' split
      all_goals simp_all
  · rw [if_neg hie]
    dsimp only
    repeat' split
    all_goals simp

/-- With the pre-state at `current_slot` and the transition producing a
summary, the validation/transition block observes the summary metrics
exactly once whatever happens later, and notifies the validator monitor
exactly when the post-state's epoch plus the historic window reaches
the wall-clock epoch. -/
theorem advance_tail_monitor_summary (e : Env) (cs : Slot) (hbr hsr : Hash)
    (st : BState) (eff : Effects) (s : Summary)
    (hslot : st.slot = cs)
    (hps : e.per_slot_outcome = some (some s)) :
    (advance_tail e cs hbr hsr st eff).2.metrics_observes =
      eff.metrics_observes + 1 ∧
    (slotEpoch e.slots_per_epoch (st.slot + 1) + e.historic_epochs ≥
        slotEpoch e.slots_per_epoch cs →
      (advance_tail e cs hbr hsr st eff).2.monitor_calls =
        eff.monitor_calls ++ [(slotEpoch e.slots_per_epoch (st.slot + 1), s)]) ∧
    (¬ slotEpoch e.slots_per_epoch (st.slot + 1) + e.historic_epochs ≥
        slotEpoch e.slots_per_epoch cs →
      (advance_tail e cs hbr hsr st eff).2.monitor_calls = eff.monitor_calls) := by
  subst hslot
  unfold advance_tail
  rw [if_neg (Nat.lt_succ_self st.slot).ne,
    if_neg (by simp : ¬ st.slot ≠ st.slot), hps]
  simp only [per_slot_processing, Option.map_some']
  have hmf := advance_rest_monitor_fields e hbr (BState.current_epoch e.slots_per_epoch st)
    { st with slot := st.slot + 1 }
    (observe_summary e st.slot { st with slot := st.slot + 1 } (some s)
      { eff with transitions := 1 })
  have hos := observe_summary_some e st.slot { st with slot := st.slot + 1 } s
    { eff with transitions := 1 }
  refine ⟨?_, ?_, ?_⟩
  · rw [hmf.1, hos.1]
  · intro hcond
    rw [hmf.2, hos.2.1 hcond]
    rfl
  · intro hcond
    rw [hmf.2, hos.2.2 hcond]

/-- C10: with the gates passed, the pre-state fetched at `current_slot`
and the one-slot transition producing an epoch summary, the summary's
Prometheus metrics are observed exactly once unconditionally, while the
summary is forwarded to the validator monitor exactly when the
post-state's current epoch plus the historic-epoch window is at least
the epoch of the wall-clock current slot. -/
theorem advance_head_validator_monitor_window (e : Env) (cs : Slot)
    (ph hi : HeadInfo) (r : Hash) (st : BState) (s : Summary)
    (hs : e.slot_result = some cs)
    (hh : e.head_info_pre = some ph)
    (hd : ¬ ph.slot + MAX_ADVANCE_DISTANCE < cs)
    (hfc : e.fork_choice_ok = true)
    (hhp : e.head_info_post = some hi)
    (hadv : e.advanced_state = some (some (r, st)))
    (hslot : st.slot = cs)
    (hps : e.per_slot_outcome = some (some s)) :
    (advance_head e).2.metrics_observes = 1 ∧
    (slotEpoch e.slots_per_epoch (st.slot + 1) + e.historic_epochs ≥
        slotEpoch e.slots_per_epoch cs →
      (advance_head e).2.monitor_calls =
        [(slotEpoch e.slots_per_epoch (st.slot + 1), s)]) ∧
    (¬ slotEpoch e.slots_per_epoch (st.slot + 1) + e.historic_epochs ≥
        slotEpoch e.slots_per_epoch cs →
      (advance_head e).2.monitor_calls = []) := by
  have hred : advance_head e = advance_tail e cs hi.block_root r st
      { Effects.empty with
          fork_choice_runs := 1,
          state_fetches := [(hi.block_root, cs, hi.state_root)] } :=
    (advance_head_gate e cs ph hs hh hd).trans
      (advance_head_post_fetch e cs hi r st hfc hhp hadv)
  have ht := advance_tail_monitor_summary e cs hi.block_root r st
    { Effects.empty with
        fork_choice_runs := 1,
        state_fetches := [(hi.block_root, cs, hi.state_root)] }
    s hslot hps
  rw [hred]
  refine ⟨?_, ?_, ?_⟩
  · rw [ht.1]
    rfl
  · intro hcond
    rw [ht.2.1 hcond]
    rfl
  · intro hcond
    rw [ht.2.2 hcond]
    rfl

/-- Closed instance of `advance_head_validator_monitor_window` at
`envOk`: the summary is observed once and, since epoch 2 plus the
window 10 exceeds the wall-clock epoch 1, forwarded to the validator
monitor. -/
theorem advance_head_validator_monitor_window_witness :
    (advance_head envOk).2.metrics_observes = 1 ∧
    (advance_head envOk).2.monitor_calls = [(2, 42)] := by
  have hthm := advance_head_validator_monitor_window envOk 15 ⟨5, 15, 9⟩ ⟨5, 15, 9⟩
    77 ⟨15, 3⟩ 42 rfl rfl (by decide) rfl rfl rfl rfl rfl
  exact ⟨hthm.1, hthm.2.1 (by decide)⟩

/-- `envOk` with the pre-fork-choice head seen at slot 3, far behind
the current slot 15. -/
def envFar : Env := { envOk with head_info_pre := some ⟨5, 3, 9⟩ }

/-- Closed instance of `advance_head_max_distance`: at `envFar`
(head slot 3, current slot 15) the refusal with an empty trace; at
`envOk` (head slot 15) no max-distance refusal. -/
theorem advance_head_max_distance_witness :
    (advance_head envFar = (.error (.maxDistanceExceeded 15 3), Effects.empty) ∧
      (advance_head envFar).2.fork_choice_runs = 0 ∧
      (advance_head envFar).2.state_fetches = [] ∧
      (advance_head envFar).2.put_states = []) ∧
    (advance_head envOk).1 ≠ .error (.maxDistanceExceeded 15 10) :=
  ⟨(advance_head_max_distance envFar 15 ⟨5, 3, 9⟩ rfl rfl).1 (by decide),
   (advance_head_max_distance envOk 15 ⟨5, 15, 9⟩ rfl rfl).2 (by decide) 15 10⟩

/-- Counterexample to the unconditional epoch-boundary priming claim:
at `envLockTimeout` the fetched pre-state's one-slot advance crosses an
epoch boundary (epoch 1 to epoch 2 with 8 slots per epoch) and the
transition runs, yet the shuffling cache receives no insert — the
bounded wait on it times out after the proposer cache has already
received its single insert — so the two caches do not each receive
exactly one insert. -/
theorem advance_head_epoch_boundary_counterexample :
    envLockTimeout.advanced_state = some (some (77, ⟨15, 3⟩)) ∧
    BState.current_epoch envLockTimeout.slots_per_epoch ⟨15, 3⟩ <
      slotEpoch envLockTimeout.slots_per_epoch (15 + 1) ∧
    (advance_head envLockTimeout).2.transitions = 1 ∧
    (advance_head envLockTimeout).2.proposer_inserts = [(2, 5)] ∧
    (advance_head envLockTimeout).2.shuffling_inserts = [] := by
  refine ⟨rfl, by decide, ?_, ?_, ?_⟩
  all_goals decide
